import Mathlib

/-!
Verification of the AccountLogCleaner log-record recovery and normalization
pipeline.  The Python sources are shallowly embedded: text is `List Char`,
tab-delimited records are `List (List Char)`, pandas DataFrames are a
column-name list together with row-major cells, and a missing value (NaN)
is `none : Option (List Char)`.  Each definition transcribes one function of
`src/funcs.py` or `src/app/*.py`; the theorems at the end of the file settle
the specification claims against these definitions.
-/

namespace AccountLogCleaner

/-- A DataFrame cell: `none` models pandas NaN, `some s` a string value. -/
abbrev Cell := Option (List Char)

/-- A DataFrame row: one cell per column, positional. -/
abbrev Row := List Cell

/-! ## Basic string utilities shared by several components -/

/-- Split a character list on a separator character, Python `str.split(sep)`:
`"" → [""]`, separators at the ends produce empty fields. -/
def splitOnChar (sep : Char) : List Char → List (List Char)
  | [] => [[]]
  | c :: rest =>
    match splitOnChar sep rest with
    | [] => [[]]
    | s :: ss => if c = sep then [] :: s :: ss else (c :: s) :: ss

/-- Python `line.replace("\t\r", "")`: delete every (non-overlapping,
left-to-right) tab-immediately-followed-by-carriage-return pair. -/
def removeTabCR : List Char → List Char
  | [] => []
  | '\t' :: '\r' :: rest => removeTabCR rest
  | c :: rest => c :: removeTabCR rest

/-- Whitespace stripped by Python `str.strip()` (ASCII subset; the log data
holds no exotic Unicode whitespace). -/
def isPyWS (c : Char) : Bool :=
  c == ' ' || c == '\t' || c == '\n' || c == '\r' || c == '\x0b' || c == '\x0c'

/-- Python `str.strip()`: drop leading and trailing whitespace. -/
def pyStrip (s : List Char) : List Char :=
  ((s.dropWhile isPyWS).reverse.dropWhile isPyWS).reverse

/-! ## LineRecoveryEngine
`funcs.readErroneusLines` / `FileHandler._read_erroneous_lines`.
A file is a list of physical lines; the `'\n'` line terminator, when present,
sits at the end of a line and `'\n'` occurs nowhere else. -/

/-- Model of `re.findall(r".*{.*", line)[0]` for a line containing `'{'`:
`.` does not match `'\n'` and both `.*` are greedy, so the first match is the
first newline-free segment of the line that contains a `'{'` — the whole
segment, including every character before the first `'{'`. -/
def firstBraceSegment (l : List Char) : List Char :=
  (((splitOnChar '\n' l).filter (fun seg => seg.contains '{')).headD [])

/-- The cleaned text handed on to tab-splitting for a selected line:
marker extraction followed by `.replace("\t\r", "")`. -/
def cleanLine (l : List Char) : List Char :=
  removeTabCR (firstBraceSegment l)

/-- Split a cleaned line on tab characters, `line.split('\t')`. -/
def splitTab (l : List Char) : List (List Char) :=
  splitOnChar '\t' l

/-- Arity correction of one split line (`len == 10` reassembles positions
6..9 into one field, `len == 7` is accepted as-is, anything else dropped). -/
def correctedLine (fs : List (List Char)) : Option (List (List Char)) :=
  if fs.length = 10 then
    some (fs.take 6 ++ [fs.getD 6 [] ++ fs.getD 7 [] ++ fs.getD 8 [] ++ fs.getD 9 []])
  else if fs.length = 7 then
    some fs
  else
    none

/-- `funcs.readErroneusLines` / `FileHandler._read_erroneous_lines`: select
every raw line containing `'{'`, clean it, split on tabs, and keep the
arity-corrected records in order. -/
def readErroneusLines (lines : List (List Char)) : List (List (List Char)) :=
  ((((lines.filter (fun l => l.contains '{')).map cleanLine).map splitTab).filterMap
    correctedLine)

/-! ## DataFrame model
Named columns plus row-major cells; `none` is NaN. -/

structure DataFrame where
  cols : List String
  rows : List Row
deriving DecidableEq, Repr

/-! ## Normalizer — `DataProcessor.make_data_clean` -/

/-- `DataProcessor.VALIDATION_OK_COLS`. -/
def VALIDATION_OK_COLS : List String :=
  ["BankName", "AccountNumber", "ShebaNumber",
   "NationalCode", "TransactionTime", "Status"]

/-- `DataProcessor.VALIDATION_ERROR_COLS`. -/
def VALIDATION_ERROR_COLS : List String :=
  ["BankName", "AccountNumber", "ShebaNumber",
   "NationalCode", "TransactionTime", "ErrorCode", "Status"]

/-- The column-name test of `make_data_clean`: a (string-named) column is
cleaned iff its name occurs in `VALIDATION_OK_COLS + VALIDATION_ERROR_COLS`. -/
def canonicalCol (c : String) : Bool :=
  (VALIDATION_OK_COLS ++ VALIDATION_ERROR_COLS).contains c

/-- pandas `.astype(str)` at cell level: NaN becomes the literal string
`"nan"`; a string stays itself. -/
def pyAstypeStr : Cell → List Char
  | none => ['n', 'a', 'n']
  | some s => s

/-- Helper for the regex `^.*?:` (no MULTILINE, `.` does not match `'\n'`):
locate the text after the first colon, provided no newline precedes it. -/
def afterFirstColon : List Char → Option (List Char)
  | [] => none
  | c :: t => if c = ':' then some t else if c = '\n' then none else afterFirstColon t

/-- Cell effect of `.str.replace(r"^.*?:", "", regex=True)`: remove the
shortest leading substring up to and including the first colon when the
anchored pattern matches, otherwise leave the value unchanged. -/
def stripLabel (s : List Char) : List Char :=
  (afterFirstColon s).getD s

/-- One cell of a canonical column through
`.astype(str).str.replace(r"^.*?:", "", regex=True).str.strip()`. -/
def cleanCell (cell : Cell) : Cell :=
  some (pyStrip (stripLabel (pyAstypeStr cell)))

/-- One row through the per-column cleaning loop of `make_data_clean`. -/
def cleanRow (cols : List String) (row : Row) : Row :=
  (cols.zip row).map (fun p => if canonicalCol p.1 then cleanCell p.2 else p.2)

/-- `DataProcessor.make_data_clean`: clean every canonical column, then
`dropna(how="all")` (keep rows having at least one non-NaN cell), then
`fillna("")` (replace remaining NaN cells by the empty string).  The
`file_type` argument is unused by the Python body and kept for fidelity. -/
def make_data_clean (df : DataFrame) (_fileType : String) : DataFrame :=
  let rows1 := df.rows.map (cleanRow df.cols)
  let rows2 := rows1.filter (fun r => r.any (fun c => c.isSome))
  ⟨df.cols, rows2.map (fun r => r.map (fun c => some (c.getD [])))⟩

/-! ## Enricher — `DataProcessor.enrich_data` -/

/-- Canonical output order for `ValidationOk` (refactored pipeline). -/
def VALIDATION_OK_ORDER : List String :=
  ["BankName", "AccountNumber", "ShebaNumber", "NationalCode",
   "Date", "TransactionTime", "Status", "FileName", "Type", "ProcessedAt"]

/-- Canonical output order for `ValidationError` (refactored pipeline). -/
def VALIDATION_ERROR_ORDER : List String :=
  ["BankName", "AccountNumber", "ShebaNumber", "NationalCode",
   "Date", "TransactionTime", "ErrorCode", "Status", "FileName", "Type", "ProcessedAt"]

/-- Label-based cell access, `row[name]` for a row of a frame with columns
`cols` (pandas label indexing is positional after `find`). -/
def getCellByName (cols : List String) (row : Row) (name : String) : Cell :=
  match cols.findIdx? (fun c => c == name) with
  | some i => row.getD i none
  | none => none

/-- `data[name] = <per-row value>`: replace the column in place when the
name exists, otherwise append it on the right. -/
def setCol (df : DataFrame) (name : String) (f : List String → Row → Cell) : DataFrame :=
  match df.cols.findIdx? (fun c => c == name) with
  | some i => ⟨df.cols, df.rows.map (fun r => r.set i (f df.cols r))⟩
  | none => ⟨df.cols ++ [name], df.rows.map (fun r => r ++ [f df.cols r])⟩

/-- `DataProcessor.enrich_data`.  `now` stands for the
`datetime.now().isoformat()` timestamp (one instant per call). -/
def enrich_data (df : DataFrame) (filename : List Char) (fileType : String)
    (now : List Char) : DataFrame :=
  let df1 :=
    if df.cols.contains ("TransactionTime") then
      -- data["Date"] = data["TransactionTime"].str[:10]  (NaN stays NaN)
      setCol df ("Date") (fun cols r =>
        (getCellByName cols r ("TransactionTime")).map (List.take 10))
    else
      setCol df ("Date") (fun _ _ => some [])
  let df2 := setCol df1 ("FileName") (fun _ _ => some filename)
  let df3 := setCol df2 ("Type") (fun _ _ => some fileType.toList)
  let df4 := setCol df3 ("ProcessedAt") (fun _ _ => some now)
  let order := if fileType = "ValidationOk" then VALIDATION_OK_ORDER
               else VALIDATION_ERROR_ORDER
  let kept := order.filter (fun c => df4.cols.contains c)
  ⟨kept, df4.rows.map (fun r => kept.map (fun c => getCellByName df4.cols r c))⟩

/-! ## SizeConstraintEnforcer — `DataProcessor.fix_column_size` -/

/-- The `column_limits` dictionary of `fix_column_size`. -/
def column_limits : List (String × Nat) :=
  [("BankName", 100), ("AccountNumber", 50), ("ShebaNumber", 50),
   ("NationalCode", 30), ("Date", 10), ("TransactionTime", 21),
   ("Status", 1000), ("FileName", 256), ("Type", 20),
   ("ErrorCode", 10), ("ProcessedAt", 30)]

/-- Cell effect of the truncation loop: a column named in `column_limits`
goes through `.astype(str).str[:limit]`; any other column is untouched. -/
def fixCell (name : String) (cell : Cell) : Cell :=
  match column_limits.lookup name with
  | some lim => some ((pyAstypeStr cell).take lim)
  | none => cell

/-- One row through the truncation loop (positional view of the per-column
mutation). -/
def fixRow (cols : List String) (row : Row) : Row :=
  (cols.zip row).map (fun p => fixCell p.1 p.2)

/-- `DataProcessor.fix_column_size`.  The Python `file_type` parameter is
unused by the body (one limits table serves both schemas) and kept for
fidelity. -/
def fix_column_size (df : DataFrame) (_fileType : String) : DataFrame :=
  ⟨df.cols, df.rows.map (fixRow df.cols)⟩

/-- `DataProcessor.get_database_types`, reduced to the column-width part of
the SQLAlchemy type mapping (the destination DDL widths). -/
def get_database_types (fileType : String) : List (String × Nat) :=
  [("BankName", 100), ("AccountNumber", 50), ("ShebaNumber", 50),
   ("NationalCode", 30), ("Date", 10), ("TransactionTime", 21),
   ("Status", 1000), ("FileName", 256), ("Type", 20), ("ProcessedAt", 30)]
  ++ (if fileType = "ValidationOk" then [] else [("ErrorCode", 10)])

/-! ## FileClassifier — `FileHandler.detect_file_type` -/

/-- Errors raised by `FileHandler.detect_file_type` (both are
`FileProcessingError` in Python; the message distinguishes them). -/
inductive FileTypeError where
  | UnrecognizedFileType
  | UnknownFileType
deriving DecidableEq, Repr

/-- `\d*\.txt` after a matched tag: greedy digits then the literal `.txt`
(backtracking cannot help because `'.'` is not a digit). -/
def digitsDotTxt (s : List Char) : Bool :=
  (".txt".toList).isPrefixOf (s.dropWhile Char.isDigit)

/-- One attempt of `(ValidationError|ValidationOk)\d*\.txt` anchored at the
start of `s`; returns the captured group. -/
def matchTagAt (s : List Char) : Option String :=
  if ("ValidationError".toList).isPrefixOf s
      && digitsDotTxt (s.drop 15) then
    some ("ValidationError")
  else if ("ValidationOk".toList).isPrefixOf s
      && digitsDotTxt (s.drop 12) then
    some ("ValidationOk")
  else
    none

/-- The leftmost match found by `re.findall(FILE_PATTERN, name)[0]`. -/
def findFirstTag : List Char → Option String
  | [] => none
  | c :: rest =>
    match matchTagAt (c :: rest) with
    | some t => some t
    | none => findFirstTag rest

/-- Whether `FILE_PATTERN` matches somewhere inside `s` (a `re.findall`
match exists): some start position of `s` begins a match. -/
def filePatternMatches : List Char → Bool
  | [] => false
  | c :: rest => (matchTagAt (c :: rest)).isSome || filePatternMatches rest

/-- `FileHandler.detect_file_type`: first `findall` group on success,
`FileProcessingError` when the list of matches is empty; the defensive
membership test in `VALID_TYPES` is kept. -/
def detect_file_type (name : List Char) : Except FileTypeError String :=
  match findFirstTag name with
  | some t =>
    if t = "ValidationError" ∨ t = "ValidationOk" then Except.ok t
    else Except.error FileTypeError.UnknownFileType
  | none => Except.error FileTypeError.UnrecognizedFileType

/-! ## TabRecordParser and `FileHandler.load_text_files` -/

/-- Highest arity over the split lines (number of pandas columns). -/
def numCols (table : List (List (List Char))) : Nat :=
  table.foldr (fun r m => max r.length m) 0

/-- Column `j` holds at least one non-empty field (`read_csv` turns empty
fields and missing trailing fields into NaN, so a column is dropped by
`dropna(axis=1, how="all")` exactly when every field is empty or missing). -/
def colNonEmpty (table : List (List (List Char))) (j : Nat) : Bool :=
  table.any (fun r => !(r.getD j []).isEmpty)

/-- Drop the all-empty columns of a split table. -/
def dropEmptyCols (table : List (List (List Char))) : List (List (List Char)) :=
  let keep := (List.range (numCols table)).filter (colNonEmpty table)
  table.map (fun r => keep.map (fun j => r.getD j []))

/-- Modelled from the spec: the TabRecordParser (§4.2) is the external
`pandas.read_csv(..., delimiter="\t", on_bad_lines="skip")` call followed by
`.dropna(axis=1, how="all")` — not code of this repository.  Per the spec it
splits each (newline-free) line on tab characters, every text line
tokenizes, and columns empty across every line are dropped. -/
def tabRecordParse (lines : List (List Char)) : List (List (List Char)) :=
  dropEmptyCols (lines.map splitTab)

/-- `FileHandler.load_text_files`: primary parse, then for the
`ValidationError` schema append the recovery pass output when it is
non-empty.  Column renaming (`_rename_columns`) only relabels positions and
is identity on the row data modelled here. -/
def loadTextFiles (lines : List (List Char)) (fileType : String) :
    List (List (List Char)) :=
  let df := tabRecordParse lines
  if fileType = "ValidationError" then
    let recovered := readErroneusLines lines
    if recovered.isEmpty then df else df ++ recovered
  else
    df

/-! ## Orchestrator — `LogProcessor.run` -/

/-- The per-file loop of `LogProcessor.run`: each file is processed inside
`try/except`; a failure is logged, the file is recorded in `failed_files`
(`none` outcome) and the loop continues with the next file. -/
def processLoop (process : α → Except ε β) : List α → List (α × Option β)
  | [] => []
  | f :: rest =>
    match process f with
    | Except.ok b => (f, some b) :: processLoop process rest
    | Except.error _ => (f, none) :: processLoop process rest

/-- `LogProcessor.run`: `extract_wanted_files` may fail on an
environment-level condition (missing input directory), which propagates and
aborts the batch; otherwise every file goes through the guarded loop. -/
def LogProcessor.run (extract : Except ε (List α)) (process : α → Except ε β) :
    Except ε (List (α × Option β)) :=
  match extract with
  | Except.error e => Except.error e
  | Except.ok files => Except.ok (processLoop process files)

/-! ## Spec-side definitions (used to compare the code against the
specification's words) -/

/-- Following the spec's words for §4.3 step 2: the minimal substring
beginning at the first `'{'` marker to end of line (leading characters
discarded), with tab-carriage-return pairs removed. -/
def specMarkerText (l : List Char) : List Char :=
  removeTabCR (l.dropWhile (fun c => !(c == '{')))

/-- A value "retains a leading label-colon prefix" when it still has the
shape `label ++ ":" ++ rest` with a colon-free label, i.e. when it contains
a colon at all. -/
def hasLabelColon (s : List Char) : Bool :=
  (s.takeWhile (fun c => !(c == ':'))).length < s.length

/-- What the spec requires of one truncated cell under limit `lim`:
the new value is the old one through `astype(str)` cut to its first `lim`
characters; its length is within the limit; a value already within the
limit is unchanged. -/
def truncatedCell (lim : Nat) (old new : Cell) : Prop :=
  new = some ((pyAstypeStr old).take lim)
  ∧ (∀ s, new = some s → s.length ≤ lim)
  ∧ (∀ s, old = some s → s.length ≤ lim → new = some s)

/-! ## Helper lemmas -/

theorem splitOnChar_of_not_mem {sep : Char} {l : List Char} (h : sep ∉ l) :
    splitOnChar sep l = [l] := by
  induction l with
  | nil => rfl
  | cons c rest ih =>
    have hc : c ≠ sep := fun he => h (he ▸ List.mem_cons_self c rest)
    have hr : sep ∉ rest := fun hm => h (List.mem_cons_of_mem c hm)
    simp [splitOnChar, ih hr, if_neg hc]

theorem contains_eq_true_of_mem {c : Char} {l : List Char} (h : c ∈ l) :
    l.contains c = true := by
  simpa using h

theorem firstBraceSegment_of_no_newline {l : List Char}
    (h1 : '{' ∈ l) (h2 : '\n' ∉ l) : firstBraceSegment l = l := by
  unfold firstBraceSegment
  rw [splitOnChar_of_not_mem h2]
  simp [contains_eq_true_of_mem h1, h1]

/-! ## Claim C1 -/

/-- C1: for every `ValidationError` raw line that, after marker extraction
and cleaning, splits on tab into exactly 10 fields, the LineRecoveryEngine
returns a single 7-field record whose fields 0-5 equal the input's fields
0-5 unchanged and whose field 6 is the concatenation of input fields
6, 7, 8, 9 in that order with no separator inserted. -/
theorem c1_recovery_ten_fields (l : List Char)
    (h1 : '{' ∈ l)
    (h2 : (splitTab (cleanLine l)).length = 10) :
    readErroneusLines [l]
      = [(splitTab (cleanLine l)).take 6
          ++ [(splitTab (cleanLine l)).getD 6 [] ++ (splitTab (cleanLine l)).getD 7 []
              ++ (splitTab (cleanLine l)).getD 8 [] ++ (splitTab (cleanLine l)).getD 9 []]]
    ∧ ∀ r ∈ readErroneusLines [l],
        r.length = 7 ∧ ∀ i, i < 6 → r.getD i [] = (splitTab (cleanLine l)).getD i [] := by
  have hsel : List.filter (fun x => x.contains '{') [l] = [l] := by
    simp [List.filter, contains_eq_true_of_mem h1, h1]
  have hmain : readErroneusLines [l]
      = [(splitTab (cleanLine l)).take 6
          ++ [(splitTab (cleanLine l)).getD 6 [] ++ (splitTab (cleanLine l)).getD 7 []
              ++ (splitTab (cleanLine l)).getD 8 [] ++ (splitTab (cleanLine l)).getD 9 []]] := by
    unfold readErroneusLines
    rw [hsel]
    simp [correctedLine, h2]
  refine ⟨hmain, ?_⟩
  intro r hr
  rw [hmain] at hr
  have hr' : r = (splitTab (cleanLine l)).take 6
      ++ [(splitTab (cleanLine l)).getD 6 [] ++ (splitTab (cleanLine l)).getD 7 []
          ++ (splitTab (cleanLine l)).getD 8 [] ++ (splitTab (cleanLine l)).getD 9 []] := by
    simpa using hr
  subst hr'
  constructor
  · simp [List.length_take, h2]
  · intro i hi
    have hlt : i < ((splitTab (cleanLine l)).take 6).length := by
      simp [List.length_take, h2]
      omega
    rw [List.getD_append _ _ _ _ hlt]
    have hlen : i < (splitTab (cleanLine l)).length := by omega
    rw [List.getD_eq_getElem _ _ hlt, List.getD_eq_getElem _ _ hlen, List.getElem_take]

/-- Witness for C1: a concrete 10-field corrupted line
`"a⇥b⇥c⇥d⇥e⇥f⇥{g⇥h⇥i⇥j}"` recovers to the single 7-field record ending in
`"{ghij}"`. -/
theorem c1_recovery_ten_fields_witness :
    readErroneusLines
        [("a\tb\tc\td\te\tf\t").toList ++ ('{' :: ("g\th\ti\t").toList) ++ ['j', '}']]
      = [[['a'], ['b'], ['c'], ['d'], ['e'], ['f'], ['{', 'g', 'h', 'i', 'j', '}']]] := by
  have h := (c1_recovery_ten_fields
    (("a\tb\tc\td\te\tf\t").toList ++ ('{' :: ("g\th\ti\t").toList) ++ ['j', '}'])
    (by decide) (by decide)).1
  rw [h]
  decide

/-! ## Claim C2 -/

/-- C2 counterexample: on the selected line `"a⇥b{c"` the code hands on the
whole line — `re.findall(r".*{.*", line)[0]` matches from position 0 — not
the minimal substring starting at the first `'{'` that the claim (and the
spec) describe, so the characters before the first `'{'` are NOT
discarded. -/
theorem c2_marker_extraction_counterexample :
    cleanLine (['a', '\t', 'b', '{', 'c']) = ['a', '\t', 'b', '{', 'c']
    ∧ specMarkerText (['a', '\t', 'b', '{', 'c']) = ['{', 'c']
    ∧ cleanLine (['a', '\t', 'b', '{', 'c'])
        ≠ specMarkerText (['a', '\t', 'b', '{', 'c']) := by
  decide

/-- C2 as amended: for every selected line (one containing `'{'`, with its
`'\n'` terminator already removed), the text handed on to tab-splitting is
the ENTIRE line with every literal tab-carriage-return pair removed; the
characters before the first `'{'` are retained, not discarded. -/
theorem c2_cleaning_keeps_leading_text (l : List Char)
    (h1 : '{' ∈ l) (h2 : '\n' ∉ l) :
    cleanLine l = removeTabCR l := by
  unfold cleanLine
  rw [firstBraceSegment_of_no_newline h1 h2]

/-- Witness for C2 (amended): on `"ab⇥\r{c"` the cleaned text is the whole
line with the tab-carriage-return pair removed, leading `"ab"` kept. -/
theorem c2_cleaning_keeps_leading_text_witness :
    cleanLine (['a', 'b', '\t', '\r', '{', 'c']) = ['a', 'b', '{', 'c'] := by
  have h := c2_cleaning_keeps_leading_text (['a', 'b', '\t', '\r', '{', 'c'])
    (by decide) (by decide)
  rw [h]
  decide

/-! ## Claim C3 -/

/-- C3 (code bug evaluated): a `ValidationError` frame holding one row whose
seven fields are all null is NOT dropped by `make_data_clean` — the
`astype(str)` step has already turned every NaN into the literal string
`"nan"` before `dropna(how="all")` and `fillna("")` run, so the row
survives with every field equal to `"nan"` instead of being removed, and no
null is ever replaced by the empty string in a canonical column. -/
theorem c3_all_null_row_survives_as_nan :
    make_data_clean (DataFrame.mk VALIDATION_ERROR_COLS [List.replicate 7 none])
        ("ValidationError")
      = DataFrame.mk VALIDATION_ERROR_COLS [List.replicate 7 (some (['n', 'a', 'n']))] := by
  decide

/-! ## Claim C4 -/

theorem lookup_mem {α β : Type} [BEq α] [LawfulBEq α] {l : List (α × β)}
    {a : α} {b : β} (h : l.lookup a = some b) : (a, b) ∈ l := by
  induction l with
  | nil => simp [List.lookup] at h
  | cons p t ih =>
    obtain ⟨k, v⟩ := p
    by_cases hk : a = k
    · subst hk
      simp [List.lookup] at h
      simp [h]
    · have hb : (a == k) = false := by simpa using hk
      simp [List.lookup, hb] at h
      exact List.mem_cons_of_mem _ (ih h)

theorem fixRow_getD (cols : List String) (r : Row) (i : Nat)
    (hi : i < cols.length) (hir : i < r.length) :
    (fixRow cols r).getD i none = fixCell (cols.getD i ("")) (r.getD i none) := by
  induction cols generalizing r i with
  | nil => simp at hi
  | cons c cs ih =>
    cases r with
    | nil => simp at hir
    | cons x xs =>
      cases i with
      | zero => simp [fixRow]
      | succ j =>
        have hj : j < cs.length := by simpa using hi
        have hjr : j < xs.length := by simpa using hir
        simpa [fixRow] using ih xs j hj hjr

theorem truncatedCell_take (L : Nat) (old : Cell) :
    truncatedCell L old (some ((pyAstypeStr old).take L)) := by
  refine ⟨rfl, ?_, ?_⟩
  · intro s hs
    have : (pyAstypeStr old).take L = s := by injection hs
    subst this
    simp [List.length_take]
  · intro s hs hlen
    cases old with
    | none => exact absurd hs (by simp)
    | some t =>
      have : t = s := by injection hs
      subst this
      simp [pyAstypeStr, List.take_of_length_le hlen]

theorem limits_agree_ok :
    ∀ p ∈ get_database_types ("ValidationOk"), column_limits.lookup p.1 = some p.2 := by
  decide

theorem limits_agree_err :
    ∀ p ∈ get_database_types ("ValidationError"), column_limits.lookup p.1 = some p.2 := by
  decide

/-- C4: for records of either schema, `fix_column_size` sends every field of
a column named in its limits table through `astype(str)` and truncation to
the first `L` characters, leaves already-short values unchanged and yields
lengths within `L`; and because the truncation limits coincide with the
destination widths declared in `get_database_types`, every field is within
the destination schema's declared maximum afterwards. -/
theorem c4_size_constraint (df : DataFrame) (ft : String)
    (hft : ft = "ValidationOk" ∨ ft = "ValidationError")
    (hwf : ∀ r ∈ df.rows, r.length = df.cols.length) :
    ∀ r ∈ df.rows, ∃ r', r' ∈ (fix_column_size df ft).rows
      ∧ (∀ i, i < df.cols.length →
          ∀ L, column_limits.lookup (df.cols.getD i ("")) = some L →
            truncatedCell L (r.getD i none) (r'.getD i none))
      ∧ (∀ i, i < df.cols.length →
          ∀ L, (get_database_types ft).lookup (df.cols.getD i ("")) = some L →
            ∀ s, r'.getD i none = some s → s.length ≤ L) := by
  intro r hr
  have hrows : (fix_column_size df ft).rows = df.rows.map (fixRow df.cols) := rfl
  refine ⟨fixRow df.cols r, by rw [hrows]; exact List.mem_map_of_mem _ hr, ?_⟩
  have hpart1 : ∀ i, i < df.cols.length →
      ∀ L, column_limits.lookup (df.cols.getD i ("")) = some L →
        truncatedCell L (r.getD i none) ((fixRow df.cols r).getD i none) := by
    intro i hi L hL
    have hir : i < r.length := by rw [hwf r hr]; exact hi
    rw [fixRow_getD df.cols r i hi hir]
    simp only [fixCell, hL]
    exact truncatedCell_take L (r.getD i none)
  refine ⟨hpart1, ?_⟩
  intro i hi L hL s hs
  have hcl : column_limits.lookup (df.cols.getD i ("")) = some L := by
    rcases hft with h | h <;> subst h
    · exact limits_agree_ok _ (lookup_mem hL)
    · exact limits_agree_err _ (lookup_mem hL)
  exact (hpart1 i hi L hcl).2.1 s hs

/-- Witness for C4: a 150-character `BankName` is truncated to its first 100
characters. -/
theorem c4_size_constraint_witness :
    ∃ r', r' ∈ (fix_column_size
        (DataFrame.mk (["BankName"]) [[some (List.replicate 150 'x')]])
        ("ValidationError")).rows
      ∧ r'.getD 0 none = some (List.replicate 100 'x') := by
  have h := c4_size_constraint
    (DataFrame.mk (["BankName"]) [[some (List.replicate 150 'x')]])
    ("ValidationError") (Or.inr rfl) (by decide)
  obtain ⟨r', hmem, h1, _⟩ := h [some (List.replicate 150 'x')] (by simp)
  have ht := h1 0 (by decide) 100 (by decide)
  refine ⟨r', hmem, ?_⟩
  rw [ht.1]
  decide

/-! ## Claim C9 -/

theorem fixCell_fixCell (n : String) (c : Cell) :
    fixCell n (fixCell n c) = fixCell n c := by
  unfold fixCell
  cases h : column_limits.lookup n with
  | none => simp
  | some L => simp [pyAstypeStr, List.take_take]

theorem fixRow_fixRow (cols : List String) (r : Row) :
    fixRow cols (fixRow cols r) = fixRow cols r := by
  induction cols generalizing r with
  | nil => simp [fixRow]
  | cons c cs ih =>
    cases r with
    | nil => simp [fixRow]
    | cons x xs =>
      have h := ih xs
      simp only [fixRow] at h
      simp [fixRow, fixCell_fixCell, h]

/-- C9: applying the SizeConstraintEnforcer twice to any record set of
either schema yields the same result as applying it once. -/
theorem c9_truncation_idempotent (df : DataFrame) (ft : String) :
    fix_column_size (fix_column_size df ft) ft = fix_column_size df ft := by
  cases df with
  | mk cols rows =>
    simp [fix_column_size, List.map_map, Function.comp, fixRow_fixRow]

/-! ## Claim C5 -/

/-- C5: for every enriched record of either schema the `Date` field is
`TransactionTime` cut to its first 10 characters (so it is empty when
`TransactionTime` is the empty string), and when the frame has no
`TransactionTime` column at all the `Date` field is the empty string. -/
theorem c5_date_from_transaction_time :
    (∀ (rows : List Row) (fn now : List Char) (a b c d e f g : Cell),
      [a, b, c, d, e, f, g] ∈ rows →
      (enrich_data (DataFrame.mk VALIDATION_ERROR_COLS rows) fn ("ValidationError") now).cols
        = VALIDATION_ERROR_ORDER
      ∧ ∃ r', r' ∈ (enrich_data (DataFrame.mk VALIDATION_ERROR_COLS rows) fn
            ("ValidationError") now).rows
        ∧ getCellByName VALIDATION_ERROR_ORDER r' ("Date") = e.map (List.take 10)
        ∧ getCellByName VALIDATION_ERROR_ORDER r' ("TransactionTime") = e
        ∧ (e = some [] → getCellByName VALIDATION_ERROR_ORDER r' ("Date") = some []))
    ∧ (∀ (rows : List Row) (fn now : List Char) (a b c d e f : Cell),
      [a, b, c, d, e, f] ∈ rows →
      (enrich_data (DataFrame.mk VALIDATION_OK_COLS rows) fn ("ValidationOk") now).cols
        = VALIDATION_OK_ORDER
      ∧ ∃ r', r' ∈ (enrich_data (DataFrame.mk VALIDATION_OK_COLS rows) fn
            ("ValidationOk") now).rows
        ∧ getCellByName VALIDATION_OK_ORDER r' ("Date") = e.map (List.take 10)
        ∧ getCellByName VALIDATION_OK_ORDER r' ("TransactionTime") = e
        ∧ (e = some [] → getCellByName VALIDATION_OK_ORDER r' ("Date") = some []))
    ∧ (∀ (rows : List Row) (fn now : List Char) (a : Cell),
      [a] ∈ rows →
      ∃ r', r' ∈ (enrich_data (DataFrame.mk (["BankName"]) rows) fn
            ("ValidationError") now).rows
        ∧ getCellByName
            (enrich_data (DataFrame.mk (["BankName"]) rows) fn
              ("ValidationError") now).cols r' ("Date") = some []) := by
  refine ⟨?_, ?_, ?_⟩
  · intro rows fn now a b c d e f g hmem
    refine ⟨rfl, [a, b, c, d, e.map (List.take 10), e, f, g, some fn,
      some ("ValidationError".toList), some now], ?_, rfl, rfl, ?_⟩
    · exact List.mem_map_of_mem _ (List.mem_map_of_mem _ (List.mem_map_of_mem _
        (List.mem_map_of_mem _ (List.mem_map_of_mem _ hmem))))
    · intro he
      subst he
      rfl
  · intro rows fn now a b c d e f hmem
    refine ⟨rfl, [a, b, c, d, e.map (List.take 10), e, f, some fn,
      some ("ValidationOk".toList), some now], ?_, rfl, rfl, ?_⟩
    · exact List.mem_map_of_mem _ (List.mem_map_of_mem _ (List.mem_map_of_mem _
        (List.mem_map_of_mem _ (List.mem_map_of_mem _ hmem))))
    · intro he
      subst he
      rfl
  · intro rows fn now a hmem
    refine ⟨[a, some [], some fn, some ("ValidationError".toList), some now], ?_, rfl⟩
    exact List.mem_map_of_mem _ (List.mem_map_of_mem _ (List.mem_map_of_mem _
      (List.mem_map_of_mem _ (List.mem_map_of_mem _ hmem))))

/-- Witness for C5: one concrete `ValidationError` row whose
`TransactionTime` is `"2023-01-10T10:00:00"` enriches to `Date =
"2023-01-10"`. -/
theorem c5_date_from_transaction_time_witness :
    ∃ r', r' ∈ (enrich_data
        (DataFrame.mk VALIDATION_ERROR_COLS
          [[some ('B' :: []), some ('A' :: []), some ('S' :: []), some ('N' :: []),
            some ("2023-01-10T10:00:00".toList), some ('E' :: []), some ('O' :: [])]])
        ("f.txt".toList) ("ValidationError") ("t".toList)).rows
      ∧ getCellByName VALIDATION_ERROR_ORDER r' ("Date")
          = some ("2023-01-10".toList) := by
  obtain ⟨-, r', hm, hd, -, -⟩ := (c5_date_from_transaction_time).1
    [[some ('B' :: []), some ('A' :: []), some ('S' :: []), some ('N' :: []),
      some ("2023-01-10T10:00:00".toList), some ('E' :: []), some ('O' :: [])]]
    ("f.txt".toList) ("t".toList)
    (some ('B' :: [])) (some ('A' :: [])) (some ('S' :: [])) (some ('N' :: []))
    (some ("2023-01-10T10:00:00".toList)) (some ('E' :: [])) (some ('O' :: []))
    (by simp)
  refine ⟨r', hm, ?_⟩
  rw [hd]
  decide

/-! ## Claim C6 -/

theorem afterFirstColon_eq (s : List Char) (h : '\n' ∉ s) :
    afterFirstColon s
      = if ':' ∈ s then some ((s.dropWhile (fun c => !(c == ':'))).drop 1)
        else none := by
  induction s with
  | nil => simp [afterFirstColon]
  | cons c t ih =>
    have hc : c ≠ '\n' := fun he => h (he ▸ List.mem_cons_self c t)
    have ht : '\n' ∉ t := fun hm => h (List.mem_cons_of_mem c hm)
    by_cases hcn : c = ':'
    · subst hcn
      simp [afterFirstColon, List.dropWhile]
    · have hb : (c == ':') = false := by simpa using hcn
      simp [afterFirstColon, hcn, hc, ih ht, List.dropWhile,
        List.mem_cons, Ne.symm hcn, hb]

/-- C6 counterexample: normalizing the field value `"a:b:c"` yields
`"b:c"`, which still begins with a label-colon shape, so it is false that
after normalization no field value retains a leading label-colon prefix. -/
theorem c6_label_strip_counterexample :
    cleanCell (some (['a', ':', 'b', ':', 'c'])) = some (['b', ':', 'c'])
    ∧ hasLabelColon (['b', ':', 'c']) = true := by
  decide

/-- C6 as amended: normalization of a field value removes the shortest
leading substring up to and including the FIRST colon and then trims
surrounding whitespace, and a value with no colon is only trimmed; the
removal is applied once, so a value containing further colons may still
begin with a label-colon prefix afterwards. -/
theorem c6_label_strip (s : List Char) (h : '\n' ∉ s) :
    cleanCell (some s)
      = some (if ':' ∈ s then pyStrip ((s.dropWhile (fun c => !(c == ':'))).drop 1)
              else pyStrip s) := by
  unfold cleanCell stripLabel pyAstypeStr
  rw [afterFirstColon_eq s h]
  by_cases hc : ':' ∈ s
  · simp [hc]
  · simp [hc]

/-- Witness for C6 (amended): `" Status: OK "` normalizes to `"OK"`. -/
theorem c6_label_strip_witness :
    cleanCell (some (" Status: OK ".toList)) = some ("OK".toList) := by
  have h := c6_label_strip (" Status: OK ".toList) (by decide)
  rw [h]
  decide

/-! ## Claim C7 -/

/-- C7: a failure while processing a single file never aborts the batch:
the guarded loop of `LogProcessor.run` visits every file exactly once and
in order, each file's outcome depends only on its own processing (a
failure is recorded and the loop continues), and the batch run as a whole
fails only when the environment-level `extract_wanted_files` step fails
(e.g. missing input directory), in which case its error propagates. -/
theorem c7_per_file_isolation {α β ε : Type} (process : α → Except ε β)
    (files : List α) (e : ε) :
    LogProcessor.run (Except.ok files) process
        = Except.ok (processLoop process files)
    ∧ (processLoop process files).map Prod.fst = files
    ∧ (∀ p ∈ processLoop process files, p.2 = (process p.1).toOption)
    ∧ LogProcessor.run (Except.error e : Except ε (List α)) process
        = Except.error e := by
  have heq : ∀ (f : α) (rest : List α),
      processLoop process (f :: rest)
        = (f, (process f).toOption) :: processLoop process rest := by
    intro f rest
    cases hf : process f <;> simp [processLoop, hf, Except.toOption]
  refine ⟨rfl, ?_, ?_, rfl⟩
  · induction files with
    | nil => rfl
    | cons f rest ih => simp [heq, ih]
  · induction files with
    | nil => intro p hp; simp [processLoop] at hp
    | cons f rest ih =>
      intro p hp
      rw [heq] at hp
      rcases List.mem_cons.1 hp with hp | hp
      · subst hp
        rfl
      · exact ih p hp

/-- Witness for C7: with three files of which the middle one fails, the
batch succeeds and every file has an outcome. -/
theorem c7_per_file_isolation_witness :
    LogProcessor.run (Except.ok [0, 1, 2])
        (fun n => if n = 1 then (Except.error 7 : Except Nat Nat) else Except.ok n)
      = Except.ok [(0, some 0), (1, none), (2, some 2)] := by
  have h := c7_per_file_isolation
    (fun n => if n = 1 then (Except.error 7 : Except Nat Nat) else Except.ok n)
    [0, 1, 2] 7
  rw [h.1]
  rfl

/-! ## Claim C8 -/

/-- A start position of `s` witnesses a pattern match exactly when
`filePatternMatches` says so. -/
theorem filePatternMatches_iff (s : List Char) :
    filePatternMatches s = true ↔ ∃ i, (matchTagAt (s.drop i)).isSome = true := by
  induction s with
  | nil =>
    simp only [filePatternMatches]
    constructor
    · intro h
      exact absurd h (by simp)
    · intro ⟨i, hi⟩
      rw [List.drop_nil] at hi
      exact absurd hi (by decide)
  | cons c rest ih =>
    simp only [filePatternMatches, Bool.or_eq_true, ih]
    constructor
    · intro h
      rcases h with h | ⟨i, hi⟩
      · exact ⟨0, h⟩
      · exact ⟨i + 1, hi⟩
    · intro ⟨i, hi⟩
      cases i with
      | zero => exact Or.inl hi
      | succ j => exact Or.inr ⟨j, hi⟩

theorem findFirstTag_isSome (s : List Char) :
    (findFirstTag s).isSome = filePatternMatches s := by
  induction s with
  | nil => decide
  | cons c rest ih =>
    rw [show filePatternMatches (c :: rest)
      = ((matchTagAt (c :: rest)).isSome || filePatternMatches rest) from rfl]
    cases hm : matchTagAt (c :: rest) with
    | some t => simp [findFirstTag, hm]
    | none => simp [findFirstTag, hm, ih]

theorem findFirstTag_mem {s : List Char} {t : String}
    (h : findFirstTag s = some t) : ∃ i, matchTagAt (s.drop i) = some t := by
  induction s with
  | nil => simp [findFirstTag] at h
  | cons c rest ih =>
    cases hm : matchTagAt (c :: rest) with
    | some t' =>
      refine ⟨0, ?_⟩
      simp only [findFirstTag, hm] at h
      simpa [hm] using h
    | none =>
      simp only [findFirstTag, hm] at h
      obtain ⟨i, hi⟩ := ih h
      exact ⟨i + 1, hi⟩

theorem matchTagAt_valid {s : List Char} {t : String}
    (h : matchTagAt s = some t) :
    t = "ValidationError" ∨ t = "ValidationOk" := by
  unfold matchTagAt at h
  split at h
  · left
    injection h with h
    exact h.symm
  · split at h
    · right
      injection h with h
      exact h.symm
    · exact absurd h (by simp)

/-- C8: `detect_file_type` returns a matched schema tag exactly when the
filename matches `(ValidationError|ValidationOk)\d*\.txt` somewhere, the
returned tag is the capture of an actual match, and every filename with no
match fails with the unrecognized-file-type error. -/
theorem c8_detect_file_type (s : List Char) :
    (filePatternMatches s = true →
      ∃ t, detect_file_type s = Except.ok t
        ∧ ∃ i, matchTagAt (s.drop i) = some t)
    ∧ (filePatternMatches s = false →
      detect_file_type s = Except.error FileTypeError.UnrecognizedFileType)
    ∧ (∀ t, detect_file_type s = Except.ok t → filePatternMatches s = true) := by
  refine ⟨?_, ?_, ?_⟩
  · intro hm
    rw [← findFirstTag_isSome] at hm
    obtain ⟨t, ht⟩ := Option.isSome_iff_exists.1 hm
    obtain ⟨i, hi⟩ := findFirstTag_mem ht
    have hv := matchTagAt_valid hi
    refine ⟨t, ?_, i, hi⟩
    simp [detect_file_type, ht, hv]
  · intro hm
    rw [← findFirstTag_isSome] at hm
    have hn : findFirstTag s = none := by
      cases h : findFirstTag s with
      | none => rfl
      | some t => rw [h] at hm; simp at hm
    simp [detect_file_type, hn]
  · intro t ht
    cases hb : filePatternMatches s with
    | true => rfl
    | false =>
      rw [← findFirstTag_isSome] at hb
      have hn : findFirstTag s = none := by
        cases h : findFirstTag s with
        | none => rfl
        | some t' => rw [h] at hb; simp at hb
      rw [detect_file_type, hn] at ht
      exact absurd ht (by simp)

/-- Witness for C8: `"ValidationOk7.txt"` is classified with a matched tag;
`"report.pdf"` fails with the unrecognized-file-type error. -/
theorem c8_detect_file_type_witness :
    (∃ t, detect_file_type ("ValidationOk7.txt".toList) = Except.ok t
      ∧ ∃ i, matchTagAt (("ValidationOk7.txt".toList).drop i) = some t)
    ∧ detect_file_type ("report.pdf".toList)
        = Except.error FileTypeError.UnrecognizedFileType :=
  ⟨(c8_detect_file_type ("ValidationOk7.txt".toList)).1 (by decide),
   (c8_detect_file_type ("report.pdf".toList)).2.1 (by decide)⟩

/-! ## Claim C10 -/

theorem map_getD_range {α : Type} (r : List α) (d : α) :
    (List.range r.length).map (fun j => r.getD j d) = r := by
  induction r with
  | nil => rfl
  | cons x xs ih =>
    rw [List.length_cons, List.range_succ_eq_map, List.map_cons, List.map_map]
    refine List.cons_eq_cons.mpr ⟨rfl, ?_⟩
    exact ih

theorem dropEmptyCols_singleton (fs : List (List Char))
    (h : ∀ f ∈ fs, f ≠ []) : dropEmptyCols [fs] = [fs] := by
  unfold dropEmptyCols
  have hnum : numCols [fs] = fs.length := by simp [numCols]
  have hkeep : (List.range (numCols [fs])).filter (colNonEmpty [fs])
      = List.range fs.length := by
    rw [hnum]
    apply List.filter_eq_self.2
    intro j hj
    have hjl : j < fs.length := List.mem_range.1 hj
    have hmem : fs.getD j [] ∈ fs := by
      rw [List.getD_eq_getElem _ _ hjl]
      exact List.getElem_mem hjl
    have hne : fs.getD j [] ≠ [] := h _ hmem
    simpa [colNonEmpty, List.isEmpty_iff, List.getD] using hne
  rw [hkeep]
  simp only [List.map_cons, List.map_nil]
  rw [map_getD_range]

/-- C10: the recovery pass selects raw lines by content alone (any line
containing `'{'`), with no regard to whether the primary tolerant parser
already parsed them, and its output is appended to the parser's output —
so a well-formed 7-field `ValidationError` line with a `'{'` in its status
text, accepted by the primary parser, appears twice in the combined
output. -/
theorem c10_duplicate_recovery (l : List Char)
    (h1 : '{' ∈ l) (h2 : '\n' ∉ l) (h3 : removeTabCR l = l)
    (h4 : (splitTab l).length = 7)
    (h5 : ∀ f ∈ splitTab l, f ≠ []) :
    loadTextFiles [l] ("ValidationError") = [splitTab l, splitTab l] := by
  have hclean : cleanLine l = l := by
    unfold cleanLine
    rw [firstBraceSegment_of_no_newline h1 h2, h3]
  have hrec : readErroneusLines [l] = [splitTab l] := by
    unfold readErroneusLines
    have hsel : List.filter (fun x => x.contains '{') [l] = [l] := by
      simp [List.filter, contains_eq_true_of_mem h1, h1]
    rw [hsel]
    simp [hclean, correctedLine, h4]
  have hpar : tabRecordParse [l] = [splitTab l] := by
    unfold tabRecordParse
    simp only [List.map_cons, List.map_nil]
    exact dropEmptyCols_singleton _ h5
  unfold loadTextFiles
  rw [hrec, hpar]
  simp

/-- Witness for C10: the single-line file `"a⇥b⇥c⇥d⇥e⇥f⇥{ok}"` loads into
two identical copies of the same 7-field record. -/
theorem c10_duplicate_recovery_witness :
    loadTextFiles [("a\tb\tc\td\te\tf\t".toList ++ "{ok}".toList)]
        ("ValidationError")
      = [[['a'], ['b'], ['c'], ['d'], ['e'], ['f'], ['{', 'o', 'k', '}']],
         [['a'], ['b'], ['c'], ['d'], ['e'], ['f'], ['{', 'o', 'k', '}']]] := by
  have h := c10_duplicate_recovery ("a\tb\tc\td\te\tf\t".toList ++ "{ok}".toList)
    (by decide) (by decide) (by decide) (by decide) (by decide)
  rw [h]
  decide

end AccountLogCleaner
